import Mathlib

/-!
Shallow embedding of `basics/base_binarizer.py` (DiffSinger).

The module under verification orchestrates per-item feature extraction
(`process_item` with `get_pitch`, `get_f0cwt`, `get_align_from_textgrid`),
split-level aggregation (`process_data_split`), speaker-map construction
(`build_spk_map`) and the item-registry schema assertion in `__init__`.

External collaborators (vocoder `wav2spec`, the parselmouth pitch tracker,
the phoneme encoder, `get_mel2ph`, the cwt utilities, numpy's `std`, the
speaker-embedding model, the filesystem) are modelled as parameters of an
`Ext` record: the code under `src/` only composes their outputs, so every
claim is proved for all possible collaborator behaviours.

Python floats feeding the `np.isnan` check are modelled by the symbolic
type `FVal` (finite rational, NaN, plus/minus infinity); all other numeric
values are rationals.  Python dicts are association lists with insertion
semantics matching CPython (update in place keeps the position of an
existing key, a new key is appended).
-/

namespace DiffSinger

/-- Symbolic model of a Python float as classified by `np.isnan` /
`np.isfinite`: a finite rational, NaN, or a signed infinity. -/
inductive FVal where
  | fin (q : ℚ)
  | nan
  | inf
  | ninf
deriving DecidableEq, Repr

/-- Model of `np.isnan` on one value. -/
def FVal.isNan : FVal → Bool
  | .nan => true
  | _ => false

/-- Holds exactly on NaN and the two infinities (`not np.isfinite`). -/
def FVal.isNonFinite : FVal → Bool
  | .fin _ => false
  | _ => true

/-- Values stored in the per-item feature record (a Python dict).
`null` is Python `None`; arrays keep their element kinds apart so the
record stays a plain first-order datatype. -/
inductive Value where
  | null
  | str (s : String)
  | num (q : ℚ)
  | intList (l : List ℤ)
  | ratList (l : List ℚ)
  | ratMat (m : List (List ℚ))
  | fvalMat (m : List (List FVal))
  | boolList (l : List Bool)
deriving DecidableEq, Repr

/-- A Python dict with string keys, as an insertion-ordered association
list (CPython dicts preserve insertion order; keys are unique). -/
abbrev Dict := List (String × Value)

/-- Dict lookup, first matching key (association lists built by
`dictInsert`/`dictMerge` never hold duplicate keys). -/
def dictLookup (d : Dict) (k : String) : Option Value :=
  match d with
  | [] => none
  | (k₁, v) :: t => if k₁ = k then some v else dictLookup t k

/-- Model of `d[k] = v` on a Python dict: an existing key keeps its
position and gets the new value, a fresh key is appended at the end. -/
def dictInsert (d : Dict) (k : String) (v : Value) : Dict :=
  if (dictLookup d k).isSome then
    d.map (fun p => if p.1 = k then (k, v) else p)
  else
    d ++ [(k, v)]

/-- Model of `del d[k]`. -/
def dictRemove (d : Dict) (k : String) : Dict :=
  d.filter (fun p => p.1 ≠ k)

/-- Model of the Python merge `{**a, **b}`: start from `a` and insert
every binding of `b` in order, later keys overriding earlier values. -/
def dictMerge (a b : Dict) : Dict :=
  b.foldl (fun d p => dictInsert d p.1 p.2) a

/-- Coerces a looked-up value to the string the Python code reads there
(the reachable states always store a string under the accessed key). -/
def asStr : Option Value → String
  | some (.str s) => s
  | _ => ""

/-- Coerces a looked-up value to the rational array the Python code reads
there. -/
def asRatList : Option Value → List ℚ
  | some (.ratList l) => l
  | _ => []

/-- The `binarization_args` configuration group. -/
structure BinArgs where
  shuffle : Bool
  with_spk_embed : Bool
  with_wav : Bool
  with_f0 : Bool
  with_f0cwt : Bool
  with_txt : Bool
  with_align : Bool
deriving DecidableEq, Repr

/-- External collaborators consumed by the binarizer, as total functions:
the vocoder spectrogram extractor, the pitch tracker, the phoneme
encoder (`Except` models a raised exception), the filesystem, the
TextGrid aligner, the cwt utilities, numpy's standard deviation (its
square root leaves ℚ, so it stays abstract), the speaker-embedding model
and the audio sample rate. -/
structure Ext where
  wav2spec : String → List ℚ × List (List ℚ)
  pitchAlgo : List ℚ → List (List ℚ) → List ℚ × List ℚ
  encode : String → Except String (List ℤ)
  fileExists : String → Bool
  getMel2ph : String → String → List (List ℚ) → List ℤ × List ℚ
  getContLf0 : List ℚ → List Bool × List ℚ
  stdFn : List ℚ → ℚ
  getLf0Cwt : List ℚ → List (List FVal) × List ℚ
  embed : List ℚ → Value
  sampleRate : ℚ

/-- The declared fixed attribute schema `BASE_ITEM_ATTRIBUTES`. -/
def BASE_ITEM_ATTRIBUTES : List String :=
  [("txt"), ("ph"), ("wav_fn"), ("tg_fn"), ("spk_id")]

/-- Model of the schema assertion in `BaseBinarizer.__init__` (run right
after the first dataset is loaded):
`assert all([attr in self.item_attributes for attr in list(self.items.values())[0].keys()])`.
It inspects only the first inserted item and checks that each of its keys
occurs in the schema list.  `items` is the loaded items mapping in
insertion order; the IndexError Python raises on an empty mapping is not
modelled (every claim supplies a non-empty corpus). -/
def firstDatasetCheck (items : List Dict) (schema : List String) : Bool :=
  ((items.headD []).map Prod.fst).all (fun a => a ∈ schema)

/-- Model of Python `sorted` on a list of strings (lexicographic). -/
def sortStrings (l : List String) : List String :=
  List.insertionSort (· ≤ ·) l

/-- Model of `sorted(list(set(l)))`: the distinct strings of `l` in
increasing order. -/
def sortedTagSet (l : List String) : List String :=
  l.toFinset.sort (· ≤ ·)

/-- Speaker tags of the loaded items in registry order (the code reads
`self.items[item_name]['spk_id']` for each item name). -/
def spkTags (items : List Dict) : List String :=
  items.map (fun d => asStr (dictLookup d ("spk_id")))

/-- Model of the dict built by `build_spk_map`:
`{x: i for i, x in enumerate(sorted(list(spk_map)))}` where `spk_map` is
the set of observed speaker tags. -/
def buildSpkMap (tags : List String) : List (String × ℕ) :=
  (sortedTagSet tags).enum.map (fun p => (p.2, p.1))

/-- Model of `build_spk_map` including its assertion
`assert len(spk_map) == 0 or len(spk_map) <= hparams['num_spk']`:
`none` is the AssertionError (a fatal, run-aborting failure). -/
def buildSpkMapChecked (tags : List String) (numSpk : ℕ) :
    Option (List (String × ℕ)) :=
  let m := buildSpkMap tags
  if m.length = 0 ∨ m.length ≤ numSpk then some m else none

/-- Model of `get_pitch`: run the pitch tracker, raise
`BinarizationError("Empty **gt** f0")` when the contour sums to zero,
otherwise store `f0` and `pitch` in the record. -/
def getPitch (ext : Ext) (wav : List ℚ) (mel : List (List ℚ)) (res : Dict) :
    Except String Dict :=
  let p := ext.pitchAlgo wav mel
  if p.1.sum = 0 then
    .error ("Empty **gt** f0")
  else
    .ok (dictInsert (dictInsert res ("f0") (.ratList p.1)) ("pitch") (.ratList p.2))

/-- Mean of a rational list (`np.mean` evaluates to this on the reachable
inputs). -/
def listMean (l : List ℚ) : ℚ :=
  l.sum / l.length

/-- True when some entry of the matrix is NaN (`np.any(np.isnan(W))`). -/
def anyNan (m : List (List FVal)) : Bool :=
  m.any (fun row => row.any FVal.isNan)

/-- True when some entry of the matrix is NaN or infinite
(`np.any(~np.isfinite(W))`) — what the spec asks `get_f0cwt` to reject. -/
def anyNonFinite (m : List (List FVal)) : Bool :=
  m.any (fun row => row.any FVal.isNonFinite)

/-- Low-pass-filtered continuous log-f0 of `get_f0cwt`
(`cont_lf0_lpf`). -/
def contLf0Lpf (ext : Ext) (f0 : List ℚ) : List ℚ :=
  (ext.getContLf0 f0).2

/-- Normalised contour `cont_lf0_lpf_norm = (cont_lf0_lpf - mean) / std`
of `get_f0cwt`. -/
def cwtNorm (ext : Ext) (f0 : List ℚ) : List ℚ :=
  (contLf0Lpf ext f0).map
    (fun x => (x - listMean (contLf0Lpf ext f0)) / ext.stdFn (contLf0Lpf ext f0))

/-- The wavelet spectrum `Wavelet_lf0` computed by `get_f0cwt`. -/
def cwtSpec (ext : Ext) (f0 : List ℚ) : List (List FVal) :=
  (ext.getLf0Cwt (cwtNorm ext f0)).1

/-- The wavelet scales computed by `get_f0cwt`. -/
def cwtScales (ext : Ext) (f0 : List ℚ) : List ℚ :=
  (ext.getLf0Cwt (cwtNorm ext f0)).2

/-- Model of `get_f0cwt`: continuous log-f0, normalisation by mean/std,
continuous wavelet transform, then the `np.any(np.isnan(...))` guard;
on success the spectrum, scales and normalisation mean/std are stored. -/
def getF0cwt (ext : Ext) (f0 : List ℚ) (res : Dict) : Except String Dict :=
  if anyNan (cwtSpec ext f0) then
    .error ("NaN CWT")
  else
    .ok (dictInsert (dictInsert (dictInsert (dictInsert res
      ("cwt_spec") (.fvalMat (cwtSpec ext f0)))
      ("cwt_scales") (.ratList (cwtScales ext f0)))
      ("f0_mean") (.num (listMean (contLf0Lpf ext f0))))
      ("f0_std") (.num (ext.stdFn (contLf0Lpf ext f0))))

/-- Maximum of an integer list, as `numpy.max` computes it on the
non-empty arrays `get_mel2ph` returns (defaults to 0 on `[]`, a case
numpy would reject). -/
def listMaxD (l : List ℤ) : ℤ :=
  match l with
  | [] => 0
  | x :: xs => xs.foldl max x

/-- Model of `get_align_from_textgrid`: raise
`BinarizationError("Align not found")` when `tg_fn` is None or the file
does not exist; raise `BinarizationError("Align does not match")` when
`mel2ph.max() - 1 >= len(phone_encoded)`; otherwise store `mel2ph` and
`dur` in the record. -/
def getAlignFromTextgrid (ext : Ext) (meta : Dict) (mel : List (List ℚ))
    (phoneEncoded : List ℤ) (res : Dict) : Except String Dict :=
  match dictLookup meta ("tg_fn") with
  | some (.str tg) =>
    if ext.fileExists tg then
      let md := ext.getMel2ph tg (asStr (dictLookup meta ("ph"))) mel
      if listMaxD md.1 - 1 ≥ (phoneEncoded.length : ℤ) then
        .error ("Align does not match")
      else
        .ok (dictInsert (dictInsert res ("mel2ph") (.intList md.1))
          ("dur") (.ratList md.2))
    else
      .error ("Align not found")
  | _ => .error ("Align not found")

/-- Base record computed by `process_item` before the metadata merge:
item name, mel, wav, duration in seconds, frame count. -/
def processItemBase (itemName : String) (wav : List ℚ)
    (mel : List (List ℚ)) (sampleRate : ℚ) : Dict :=
  [(("item_name"), .str itemName), (("mel"), .ratMat mel),
   (("wav"), .ratList wav), (("sec"), .num ((wav.length : ℚ) / sampleRate)),
   (("len"), .num (mel.length : ℚ))]

/-- True exactly when `get_align_from_textgrid` hits its first failure:
`tg_fn` is None (or not a path string) or the file does not exist. -/
def alignSourceMissing (ext : Ext) (meta : Dict) : Bool :=
  match dictLookup meta ("tg_fn") with
  | some (.str tg) => ! ext.fileExists tg
  | _ => true

/-- True exactly when `get_align_from_textgrid` hits its second failure:
the maximum phoneme index referenced by the derived `mel2ph` map
(`mel2ph.max() - 1`) is out of range of the encoded phoneme sequence. -/
def alignOutOfRange (ext : Ext) (meta : Dict) (mel : List (List ℚ))
    (phoneEncoded : List ℤ) : Bool :=
  match dictLookup meta ("tg_fn") with
  | some (.str tg) =>
    decide (listMaxD (ext.getMel2ph tg (asStr (dictLookup meta ("ph"))) mel).1 - 1 ≥
      (phoneEncoded.length : ℤ))
  | _ => false

/-- The pitch stage of the `try` block of `process_item`: `get_pitch`,
then `get_f0cwt` on the freshly stored `res['f0']` when `with_f0cwt` is
set. -/
def pitchStage (ext : Ext) (ba : BinArgs) (wav : List ℚ)
    (mel : List (List ℚ)) (res : Dict) : Except String Dict :=
  if ba.with_f0 then
    match getPitch ext wav mel res with
    | .error e => .error e
    | .ok res₁ =>
      if ba.with_f0cwt then
        getF0cwt ext (asRatList (dictLookup res₁ ("f0"))) res₁
      else
        .ok res₁
  else
    .ok res

/-- Body of the `try` block of `process_item` (the alignment hook is
`get_align_from_textgrid`, the concrete implementation the module ships).
A caught phoneme-encoder exception is re-raised as
`BinarizationError("Empty phoneme")` after its traceback is printed. -/
def processItemTry (ext : Ext) (ba : BinArgs) (meta : Dict)
    (wav : List ℚ) (mel : List (List ℚ)) (res : Dict) : Except String Dict :=
  match pitchStage ext ba wav mel res with
  | .error e => .error e
  | .ok res₂ =>
    if ba.with_txt then
      match ext.encode (asStr (dictLookup meta ("ph"))) with
      | .error _ => .error ("Empty phoneme")
      | .ok phoneEncoded =>
        if ba.with_align then
          getAlignFromTextgrid ext meta mel phoneEncoded
            (dictInsert res₂ ("phone") (.intList phoneEncoded))
        else
          .ok (dictInsert res₂ ("phone") (.intList phoneEncoded))
    else
      .ok res₂

/-- The waveform `process_item` obtains from the vocoder for an item. -/
def itemWav (ext : Ext) (meta : Dict) : List ℚ :=
  (ext.wav2spec (asStr (dictLookup meta ("wav_fn")))).1

/-- The mel-spectrogram `process_item` obtains from the vocoder for an
item. -/
def itemMel (ext : Ext) (meta : Dict) : List (List ℚ) :=
  (ext.wav2spec (asStr (dictLookup meta ("wav_fn")))).2

/-- The record of `process_item` right after `res = {**res, **meta_data}`:
the metadata dict merged over the computed base record. -/
def itemRes0 (ext : Ext) (itemName : String) (meta : Dict) : Dict :=
  dictMerge
    (processItemBase itemName (itemWav ext meta) (itemMel ext meta)
      ext.sampleRate) meta

/-- Model of `process_item`: compute wav/mel through the vocoder, build
the base record, merge the metadata dict over it, run the `try` block;
a `BinarizationError` is logged and turned into the skip result `none`. -/
def processItem (ext : Ext) (ba : BinArgs) (itemName : String)
    (meta : Dict) : Option Dict :=
  match processItemTry ext ba meta (itemWav ext meta) (itemMel ext meta)
      (itemRes0 ext itemName meta) with
  | .error _ => none
  | .ok r => some r

/-- Per-split accumulation state of `process_data_split`: the records
appended to the `IndexedDatasetBuilder` in order, the `lengths` list (an
entry is the record's current `len` value), the collected `sec` values
(their sum is `total_sec`) and the collected `f0` arrays. -/
structure SplitAcc where
  records : List Dict
  lengths : List (Option Value)
  secs : List (Option Value)
  f0s : List Value
deriving DecidableEq, Repr

/-- The empty accumulation state at the top of `process_data_split`. -/
def SplitAcc.empty : SplitAcc := ⟨[], [], [], []⟩

/-- Shared aggregation body of both dispatch loops of
`process_data_split`: skip `None`, set `spk_embed`, optionally delete
`wav`, append to the builder, record `len` and `sec`, collect a non-None
`f0`. -/
def splitStep (ba : BinArgs) (ext : Ext) (acc : SplitAcc)
    (item : Option Dict) : SplitAcc :=
  match item with
  | none => acc
  | some it₀ =>
    let it₁ := dictInsert it₀ ("spk_embed")
      (if ba.with_spk_embed then ext.embed (asRatList (dictLookup it₀ ("wav")))
       else .null)
    let it := if ¬ ba.with_wav ∧ (dictLookup it₁ ("wav")).isSome then
        dictRemove it₁ ("wav")
      else it₁
    { records := acc.records ++ [it]
      lengths := acc.lengths ++ [dictLookup it ("len")]
      secs := acc.secs ++ [dictLookup it ("sec")]
      f0s := acc.f0s ++
        (match dictLookup it ("f0") with
         | some v => if v = .null then [] else [v]
         | none => []) }

/-- Extractor results consumed by the single-threaded loop of
`process_data_split` (`multiprocess=False`): `process_item` applied to
`args[i]` for `i` in `reversed(range(len(args)))`.  `args` is the list
of `(item_name, meta_data)` pairs built from the split's metadata
iterator. -/
def singleResultStream (ext : Ext) (ba : BinArgs)
    (args : List (String × Dict)) : List (Option Dict) :=
  (args.reverse).map (fun a => processItem ext ba a.1 a.2)

/-- Single-threaded dispatch strategy of `process_data_split`: fold the
shared aggregation body over its result stream. -/
def processDataSplitSingle (ext : Ext) (ba : BinArgs)
    (args : List (String × Dict)) : SplitAcc :=
  (singleResultStream ext ba args).foldl (splitStep ba ext) SplitAcc.empty

/-- Extractor results consumed by the worker-pool loop of
`process_data_split` (`multiprocess=True`).  `chunked_multiprocess_run`
yields `process_item` results in dispatch order, but the loop zips them
with `tqdm(meta_data)` where `meta_data` is the leftover variable of the
argument-building loop — the metadata dict of the LAST item — so `zip`
truncates the stream after one result per key of that dict.  (On an
empty split Python raises NameError; modelled as the empty stream.) -/
def multiResultStream (ext : Ext) (ba : BinArgs)
    (args : List (String × Dict)) : List (Option Dict) :=
  (args.map (fun a => processItem ext ba a.1 a.2)).take
    (((args.getLast?).map Prod.snd).getD []).length

/-- Worker-pool dispatch strategy of `process_data_split`: fold the
shared aggregation body over its (truncated) result stream. -/
def processDataSplitMulti (ext : Ext) (ba : BinArgs)
    (args : List (String × Dict)) : SplitAcc :=
  (multiResultStream ext ba args).foldl (splitStep ba ext) SplitAcc.empty

/-- One step of a linear congruential generator, standing in for the
seeded Mersenne-Twister stream (`Modelled from the spec:` Python's
`random` module is outside the repository; what matters is that the
stream is a pure function of the seed). -/
def lcg (s : ℕ) : ℕ :=
  (1103515245 * s + 12345) % 2147483648

/-- The `k`-th value of the seeded generator stream. -/
def lcgN (s : ℕ) : ℕ → ℕ
  | 0 => lcg s
  | k + 1 => lcg (lcgN s k)

/-- Swap two positions of a list (out-of-range indices leave it
unchanged). -/
def listSwap (l : List String) (i j : ℕ) : List String :=
  match l.get? i, l.get? j with
  | some a, some b => (l.set i b).set j a
  | _, _ => l

/-- Modelled from the spec: `random.seed(seed); random.shuffle(l)` — a
Fisher–Yates shuffle driven entirely by the seeded stream, hence a pure
function of `(seed, l)`.  (The bit-exact Mersenne-Twister permutation is
external to the repository; the claims only use determinism.) -/
def seededShuffle (seed : ℕ) (l : List String) : List String :=
  (List.range l.length).foldl
    (fun acc k =>
      let i := l.length - 1 - k
      listSwap acc i (lcgN seed k % (i + 1)))
    l

/-- Item-name ordering built in `BaseBinarizer.__init__`:
`sorted(list(self.items.keys()))`, then, when shuffling is on,
`random.seed(1234); random.shuffle(item_names)`.  `ambientRng` is the
interpreter's pre-existing PRNG state at that point in the run; the
constant re-seed makes it dead. -/
def shuffledItemNames (ambientRng : ℕ) (shuffleFlag : Bool)
    (keys : List String) : List String :=
  let names := sortStrings keys
  let _ := ambientRng
  if shuffleFlag then seededShuffle 1234 names else names

/-! ### Concrete collaborator bundles and inputs used by witnesses and
counterexamples -/

/-- A well-behaved collaborator bundle: non-silent pitch, total encoder,
one existing TextGrid `t.tg`, in-range alignment, NaN-free wavelet
spectrum. -/
def extA : Ext where
  wav2spec := fun _ => ([1, 2], [[1], [2], [3]])
  pitchAlgo := fun _ _ => ([5, 0], [1, 1])
  encode := fun _ => .ok [0, 1]
  fileExists := fun f => f = ("t.tg")
  getMel2ph := fun _ _ _ => ([1, 2], [1, 1])
  getContLf0 := fun _ => ([true], [1, 2])
  stdFn := fun _ => 1
  getLf0Cwt := fun _ => ([[.fin 1]], [3])
  embed := fun _ => .ratList [7]
  sampleRate := 2

/-- Like `extA` but the pitch tracker returns an all-zero contour. -/
def extZeroPitch : Ext :=
  { extA with pitchAlgo := fun _ _ => ([0, 0], [1, 1]) }

/-- Like `extA` but the phoneme encoder raises on every input. -/
def extEncodeErr : Ext :=
  { extA with encode := fun _ => .error ("boom") }

/-- Like `extA` but the wavelet transform returns an infinity (and no
NaN). -/
def extInfCwt : Ext :=
  { extA with getLf0Cwt := fun _ => ([[.inf]], [3]) }

/-- Configuration with every optional stage off (waveform kept). -/
def baAllOff : BinArgs := ⟨false, false, true, false, false, false, false⟩

/-- Configuration with only pitch extraction on. -/
def baF0 : BinArgs := ⟨false, false, true, true, false, false, false⟩

/-- Configuration with only text/phoneme processing on. -/
def baTxt : BinArgs := ⟨false, false, true, false, false, true, false⟩

/-- Configuration with text and alignment on. -/
def baAlign : BinArgs := ⟨false, false, true, false, false, true, true⟩

/-- A full five-attribute metadata dict whose TextGrid exists under
`extA`. -/
def metaFull : Dict :=
  [(("txt"), .str ("hello")), (("ph"), .str ("h e")),
   (("wav_fn"), .str ("a.wav")), (("tg_fn"), .str ("t.tg")),
   (("spk_id"), .str ("s1"))]

/-- Metadata whose `tg_fn` is None. -/
def metaNoTg : Dict :=
  [(("txt"), .str ("hello")), (("ph"), .str ("h e")),
   (("wav_fn"), .str ("a.wav")), (("tg_fn"), .null),
   (("spk_id"), .str ("s1"))]

/-- A one-key metadata dict (drives the worker-pool truncation bug). -/
def metaOne : Dict := [(("spk_id"), .str ("z"))]

/-- Metadata that collides with the computed `len` field. -/
def metaLenClash : Dict := [(("len"), .num 99)]

/-! ### Dictionary lemmas -/

theorem dictLookup_append (a b : Dict) (k : String) :
    dictLookup (a ++ b) k = (dictLookup a k).or (dictLookup b k) := by
  induction a with
  | nil => simp [dictLookup]
  | cons p t ih =>
    by_cases hp : p.1 = k
    · simp [dictLookup, hp, Option.or]
    · simp [dictLookup, hp, ih]

theorem dictLookup_eq_none_of_not_mem (d : Dict) (k : String)
    (h : k ∉ d.map Prod.fst) : dictLookup d k = none := by
  induction d with
  | nil => rfl
  | cons p t ih =>
    simp only [List.map_cons, List.mem_cons] at h
    push_neg at h
    have h1 : ¬ p.1 = k := fun hh => h.1 hh.symm
    simp [dictLookup, h1, ih h.2]

theorem dictLookup_mapReplace (d : Dict) (k : String) (v : Value) (k₂ : String) :
    dictLookup (d.map fun p => if p.1 = k then (k, v) else p) k₂ =
      if k₂ = k then (dictLookup d k).map (fun _ => v) else dictLookup d k₂ := by
  induction d with
  | nil => simp [dictLookup]
  | cons p t ih =>
    simp only [List.map_cons]
    by_cases hp : p.1 = k
    · rw [if_pos hp]
      by_cases hk : k₂ = k
      · subst hk
        simp [dictLookup, hp]
      · have hk' : ¬ k = k₂ := fun hh => hk hh.symm
        simp [dictLookup, hp, hk, hk', ih]
    · rw [if_neg hp]
      by_cases hk : k₂ = k
      · subst hk
        have hp' : ¬ p.1 = k₂ := hp
        simp [dictLookup, hp', ih]
      · by_cases hpk : p.1 = k₂
        · simp [dictLookup, hpk, hk]
        · simp [dictLookup, hpk, hk, ih]

theorem dictLookup_insert (d : Dict) (k : String) (v : Value) (k₂ : String) :
    dictLookup (dictInsert d k v) k₂ =
      if k₂ = k then some v else dictLookup d k₂ := by
  unfold dictInsert
  by_cases hk : (dictLookup d k).isSome
  · obtain ⟨w, hw⟩ := Option.isSome_iff_exists.mp hk
    simp [hk, dictLookup_mapReplace, hw]
  · have hnone : dictLookup d k = none := by
      cases h : dictLookup d k with
      | none => rfl
      | some w => rw [h] at hk; simp at hk
    rw [if_neg hk, dictLookup_append]
    by_cases hk₂ : k₂ = k
    · subst hk₂
      simp [hnone, dictLookup, Option.or]
    · have hk₂' : ¬ k = k₂ := fun hh => hk₂ hh.symm
      cases h₂ : dictLookup d k₂ with
      | none => simp [dictLookup, hk₂, hk₂', Option.or]
      | some w => simp [hk₂, Option.or]

theorem dictLookup_merge (a b : Dict) (k : String)
    (hb : (b.map Prod.fst).Nodup) :
    dictLookup (dictMerge a b) k = (dictLookup b k).or (dictLookup a k) := by
  induction b generalizing a with
  | nil => simp [dictMerge, dictLookup, Option.or]
  | cons p t ih =>
    simp only [List.map_cons, List.nodup_cons] at hb
    have hstep : dictMerge a (p :: t) = dictMerge (dictInsert a p.1 p.2) t := rfl
    rw [hstep, ih _ hb.2]
    by_cases hk : p.1 = k
    · subst hk
      have ht : dictLookup t p.1 = none := dictLookup_eq_none_of_not_mem _ _ hb.1
      simp [ht, dictLookup, dictLookup_insert, Option.or]
    · have hk' : ¬ k = p.1 := fun hh => hk hh.symm
      simp [dictLookup, hk, hk', dictLookup_insert]

theorem dictLookup_remove (d : Dict) (k k₂ : String) :
    dictLookup (dictRemove d k) k₂ =
      if k₂ = k then none else dictLookup d k₂ := by
  induction d with
  | nil => simp [dictRemove, dictLookup]
  | cons p t ih =>
    by_cases hp : p.1 = k
    · have hrw : dictRemove (p :: t) k = dictRemove t k := by
        simp [dictRemove, hp]
      rw [hrw, ih]
      by_cases hk : k₂ = k
      · simp [hk]
      · have hp₂ : ¬ p.1 = k₂ := fun hh => hk ((hh.symm).trans hp)
        simp [dictLookup, hk, hp₂]
    · have hrw : dictRemove (p :: t) k = p :: dictRemove t k := by
        simp [dictRemove, hp]
      rw [hrw]
      by_cases hpk : p.1 = k₂
      · have hk : ¬ k₂ = k := fun hh => hp (hpk.trans hh)
        simp [dictLookup, hpk, hk]
      · simp [dictLookup, hpk, ih]

/-! ### Aggregation-loop lemmas -/

theorem splitFold_lengths (ba : BinArgs) (ext : Ext)
    (items : List (Option Dict)) (acc : SplitAcc)
    (h : acc.lengths = acc.records.map (fun r => dictLookup r ("len"))) :
    (items.foldl (splitStep ba ext) acc).lengths =
      (items.foldl (splitStep ba ext) acc).records.map
        (fun r => dictLookup r ("len")) := by
  induction items generalizing acc with
  | nil => simpa using h
  | cons it t ih =>
    apply ih
    cases it with
    | none => simpa [splitStep] using h
    | some d => simp [splitStep, h]

theorem splitFold_count (ba : BinArgs) (ext : Ext)
    (items : List (Option Dict)) (acc : SplitAcc) :
    (items.foldl (splitStep ba ext) acc).records.length =
      acc.records.length + (items.filterMap id).length := by
  induction items generalizing acc with
  | nil => simp
  | cons it t ih =>
    cases it with
    | none => simpa [splitStep] using ih acc
    | some d =>
      rw [List.foldl_cons, ih]
      simp [splitStep]
      omega

theorem splitFold_count_empty (ba : BinArgs) (ext : Ext)
    (items : List (Option Dict)) :
    (items.foldl (splitStep ba ext) SplitAcc.empty).records.length =
      (items.filterMap id).length := by
  have h := splitFold_count ba ext items SplitAcc.empty
  rw [h]
  simp [SplitAcc.empty]

theorem asStr_some_str (s : String) : asStr (some (.str s)) = s := rfl

/-! ### Claim theorems -/

/-- C1: in `process_data_split`, the persisted frame-length sequence has
exactly one entry per record appended to the binary container and entry
`i` is the `len` value of the `i`-th appended record; items skipped by
the extractor (`process_item = None`) contribute neither a container
record nor a length entry.  This holds for the single-threaded dispatch
strategy and for the worker-pool dispatch strategy (whose aggregation
loop consumes the, possibly truncated, result stream). -/
theorem C1_lengths_aligned (ext : Ext) (ba : BinArgs)
    (args : List (String × Dict)) :
    ((processDataSplitSingle ext ba args).lengths =
        (processDataSplitSingle ext ba args).records.map
          (fun r => dictLookup r ("len"))
      ∧ (processDataSplitSingle ext ba args).records.length =
        ((singleResultStream ext ba args).filterMap id).length)
    ∧ ((processDataSplitMulti ext ba args).lengths =
        (processDataSplitMulti ext ba args).records.map
          (fun r => dictLookup r ("len"))
      ∧ (processDataSplitMulti ext ba args).records.length =
        ((multiResultStream ext ba args).filterMap id).length) := by
  refine ⟨⟨?_, ?_⟩, ⟨?_, ?_⟩⟩
  · exact splitFold_lengths ba ext (singleResultStream ext ba args)
      SplitAcc.empty rfl
  · exact splitFold_count_empty ba ext (singleResultStream ext ba args)
  · exact splitFold_lengths ba ext (multiResultStream ext ba args)
      SplitAcc.empty rfl
  · exact splitFold_count_empty ba ext (multiResultStream ext ba args)

/-- C2 counterexample: a first dataset whose only item exposes the
single attribute `txt` — a strict subset of the declared schema, missing
`ph` — passes the constructor's assertion, so the assertion does NOT
fail whenever an item's attribute set differs from the schema. -/
theorem C2_counterexample :
    firstDatasetCheck [[(("txt"), Value.str ("x"))]] BASE_ITEM_ATTRIBUTES = true
    ∧ ("ph") ∈ BASE_ITEM_ATTRIBUTES
    ∧ ("ph") ∉ (([[(("txt"), Value.str ("x"))]].headD ([] : Dict)).map
        Prod.fst) := by
  refine ⟨by decide, by decide, by decide⟩

/-- C2 (amended): the constructor's assertion checks only that every
attribute key of the FIRST loaded item is contained in the declared
schema — a subset check on one representative item, not an equality
check over all first-dataset items; items after the first are ignored
entirely. -/
theorem C2_schema_check (items rest : List Dict) (d : Dict)
    (schema : List String) :
    (firstDatasetCheck items schema = true ↔
      ∀ a ∈ (items.headD []).map Prod.fst, a ∈ schema)
    ∧ firstDatasetCheck (d :: rest) schema = firstDatasetCheck [d] schema := by
  constructor
  · simp [firstDatasetCheck, List.all_eq_true]
  · rfl

/-- C3: `build_spk_map` maps every distinct observed speaker tag to
exactly one key of the resulting mapping (keys are deduplicated and
cover exactly the observed tags), keys are in sorted order, ids are the
dense integers `0..N-1` assigned in that order, and the assertion
aborts the call exactly when the number of distinct tags exceeds the
configured `num_spk` maximum. -/
theorem C3_build_spk_map (items : List Dict) (numSpk : ℕ) :
    ((buildSpkMap (spkTags items)).map Prod.fst).Nodup
    ∧ (∀ t, t ∈ (buildSpkMap (spkTags items)).map Prod.fst ↔
        t ∈ spkTags items)
    ∧ List.Sorted (· ≤ ·) ((buildSpkMap (spkTags items)).map Prod.fst)
    ∧ (buildSpkMap (spkTags items)).map Prod.snd =
        List.range (buildSpkMap (spkTags items)).length
    ∧ (buildSpkMapChecked (spkTags items) numSpk = none ↔
        numSpk < (buildSpkMap (spkTags items)).length) := by
  have hfst : ∀ tags : List String,
      (buildSpkMap tags).map Prod.fst = sortedTagSet tags := by
    intro tags
    unfold buildSpkMap
    rw [List.map_map]
    have : (Prod.fst ∘ fun p : ℕ × String => (p.2, p.1)) = Prod.snd := rfl
    rw [this, List.enum_map_snd]
  have hsnd : ∀ tags : List String,
      (buildSpkMap tags).map Prod.snd = List.range (buildSpkMap tags).length := by
    intro tags
    unfold buildSpkMap
    rw [List.map_map, List.length_map]
    have : (Prod.snd ∘ fun p : ℕ × String => (p.2, p.1)) = Prod.fst := rfl
    rw [this, List.enum_map_fst, List.enum_length]
  refine ⟨?_, ?_, ?_, hsnd _, ?_⟩
  · rw [hfst]
    exact Finset.sort_nodup _ _
  · intro t
    rw [hfst]
    unfold sortedTagSet
    rw [Finset.mem_sort, List.mem_toFinset]
  · rw [hfst]
    exact Finset.sort_sorted _ _
  · unfold buildSpkMapChecked
    simp only []
    split_ifs with h
    · simp only [reduceCtorEq, false_iff, not_lt]
      rcases h with h | h
      · omega
      · omega
    · push_neg at h
      simp only [true_iff]
      omega

theorem processItem_none_iff (ext : Ext) (ba : BinArgs) (nm : String)
    (meta : Dict) :
    processItem ext ba nm meta = none ↔
      (processItemTry ext ba meta (itemWav ext meta) (itemMel ext meta)
        (itemRes0 ext nm meta)).isOk = false := by
  unfold processItem
  cases h : processItemTry ext ba meta (itemWav ext meta) (itemMel ext meta)
      (itemRes0 ext nm meta) with
  | error e => simp [Except.isOk, Except.toBool]
  | ok r => simp [Except.isOk, Except.toBool]

/-- C4: when pitch extraction (`with_f0`) is enabled and the extracted
pitch contour is entirely zero, `process_item` returns the skip value
`None`, and a skipped item leaves the aggregation state — container
records and length entries included — unchanged. -/
theorem C4_zero_pitch_skip (ext : Ext) (ba : BinArgs) (nm : String)
    (meta : Dict) (hf0 : ba.with_f0 = true)
    (hzero : ∀ x ∈ (ext.pitchAlgo (itemWav ext meta) (itemMel ext meta)).1,
      x = (0 : ℚ)) :
    processItem ext ba nm meta = none
    ∧ ∀ acc, splitStep ba ext acc (processItem ext ba nm meta) = acc := by
  have hsum := List.sum_eq_zero hzero
  have hnone : processItem ext ba nm meta = none := by
    unfold processItem processItemTry pitchStage getPitch
    simp [hf0, hsum]
  refine ⟨hnone, fun acc => ?_⟩
  rw [hnone]
  rfl

/-- C4 witness: with the concrete collaborators `extZeroPitch` (all-zero
pitch contour) and pitch extraction enabled, the item is skipped. -/
theorem C4_witness :
    processItem extZeroPitch baF0 ("A") metaFull = none :=
  (C4_zero_pitch_skip extZeroPitch baF0 ("A") metaFull rfl (by decide)).1

/-- C5: with alignment enabled, `get_align_from_textgrid` fails in
exactly two cases — the alignment source is missing (no `tg_fn` or no
such file) or the maximum phoneme index referenced by the derived
`mel2ph` map is out of range of the encoded phoneme sequence — and on
success the record gains the alignment map and the per-phoneme
durations; consequently (with text on, pitch off and a successful
encode) `process_item` skips the item exactly in those two cases. -/
theorem C5_align_skip (ext : Ext) (ba : BinArgs) (nm : String)
    (meta : Dict) (mel : List (List ℚ)) (pe : List ℤ) (res : Dict)
    (hf0 : ba.with_f0 = false) (htxt : ba.with_txt = true)
    (hal : ba.with_align = true)
    (henc : ext.encode (asStr (dictLookup meta ("ph"))) = .ok pe) :
    ((getAlignFromTextgrid ext meta mel pe res).isOk = true ↔
      (alignSourceMissing ext meta = false ∧
        alignOutOfRange ext meta mel pe = false))
    ∧ (∀ d, getAlignFromTextgrid ext meta mel pe res = .ok d →
        dictLookup d ("mel2ph") = some (.intList
          (ext.getMel2ph (asStr (dictLookup meta ("tg_fn")))
            (asStr (dictLookup meta ("ph"))) mel).1)
        ∧ dictLookup d ("dur") = some (.ratList
          (ext.getMel2ph (asStr (dictLookup meta ("tg_fn")))
            (asStr (dictLookup meta ("ph"))) mel).2))
    ∧ (processItem ext ba nm meta = none ↔
        (alignSourceMissing ext meta = true ∨
          alignOutOfRange ext meta (itemMel ext meta) pe = true)) := by
  have main : ∀ (mel₀ : List (List ℚ)) (res₀ : Dict),
      ((getAlignFromTextgrid ext meta mel₀ pe res₀).isOk = true ↔
        (alignSourceMissing ext meta = false ∧
          alignOutOfRange ext meta mel₀ pe = false))
      ∧ (∀ d, getAlignFromTextgrid ext meta mel₀ pe res₀ = .ok d →
          dictLookup d ("mel2ph") = some (.intList
            (ext.getMel2ph (asStr (dictLookup meta ("tg_fn")))
              (asStr (dictLookup meta ("ph"))) mel₀).1)
          ∧ dictLookup d ("dur") = some (.ratList
            (ext.getMel2ph (asStr (dictLookup meta ("tg_fn")))
              (asStr (dictLookup meta ("ph"))) mel₀).2)) := by
    intro mel₀ res₀
    unfold getAlignFromTextgrid alignSourceMissing alignOutOfRange
    cases htg : dictLookup meta ("tg_fn") with
    | none => simp [Except.isOk, Except.toBool]
    | some v =>
      cases v with
      | str tg =>
        by_cases hex : ext.fileExists tg
        · by_cases hcmp : listMaxD
              (ext.getMel2ph tg (asStr (dictLookup meta ("ph"))) mel₀).1 - 1 ≥
              ((pe.length : ℤ))
          · simp [hex, hcmp, Except.isOk, Except.toBool, asStr_some_str]
          · simp +decide [hex, hcmp, Except.isOk, Except.toBool,
              dictLookup_insert, asStr_some_str]
        · simp [hex, Except.isOk, Except.toBool]
      | null => simp [Except.isOk, Except.toBool]
      | num q => simp [Except.isOk, Except.toBool]
      | intList l => simp [Except.isOk, Except.toBool]
      | ratList l => simp [Except.isOk, Except.toBool]
      | ratMat m => simp [Except.isOk, Except.toBool]
      | fvalMat m => simp [Except.isOk, Except.toBool]
      | boolList l => simp [Except.isOk, Except.toBool]
  refine ⟨(main mel res).1, (main mel res).2, ?_⟩
  rw [processItem_none_iff]
  unfold processItemTry pitchStage
  rw [hf0]
  simp only [Bool.false_eq_true, if_false, htxt, if_true, henc, hal]
  have hiff := (main (itemMel ext meta)
    (dictInsert (itemRes0 ext nm meta) ("phone") (.intList pe))).1
  rw [← Bool.not_eq_true, hiff]
  cases h₁ : alignSourceMissing ext meta <;>
    cases h₂ : alignOutOfRange ext meta (itemMel ext meta) pe <;> simp

/-- C5 witness: with the concrete collaborators `extA` and a metadata
dict whose `tg_fn` is None, alignment processing skips the item. -/
theorem C5_witness :
    processItem extA baAlign ("A") metaNoTg = none :=
  (C5_align_skip extA baAlign ("A") metaNoTg [] [0, 1] [] rfl rfl rfl
    rfl).2.2.mpr (Or.inl (by decide))

/-- C6: when text/phoneme processing is enabled and the encoder raises
on the item's phoneme sequence, `process_item` converts the exception
into the per-item skip `None` (the run continues with the next item);
the underlying exception never propagates — inside the `try` block it
is replaced by the `Empty phoneme` condition. -/
theorem C6_encode_error_skip (ext : Ext) (ba : BinArgs) (nm : String)
    (meta : Dict) (msg : String) (htxt : ba.with_txt = true)
    (henc : ext.encode (asStr (dictLookup meta ("ph"))) = .error msg) :
    processItem ext ba nm meta = none
    ∧ (ba.with_f0 = false →
        processItemTry ext ba meta (itemWav ext meta) (itemMel ext meta)
          (itemRes0 ext nm meta) = .error ("Empty phoneme")) := by
  constructor
  · rw [processItem_none_iff]
    unfold processItemTry
    cases hps : pitchStage ext ba (itemWav ext meta) (itemMel ext meta)
        (itemRes0 ext nm meta) with
    | error e => simp [Except.isOk, Except.toBool]
    | ok r => simp [htxt, henc, Except.isOk, Except.toBool]
  · intro hf0
    unfold processItemTry pitchStage
    rw [hf0]
    simp [htxt, henc]

/-- C6 witness: with the concrete collaborators `extEncodeErr` (whose
encoder always raises) and text processing on, the item is skipped and
the `try` block reports the `Empty phoneme` condition. -/
theorem C6_witness :
    processItem extEncodeErr baTxt ("A") metaFull = none
    ∧ processItemTry extEncodeErr baTxt metaFull
        (itemWav extEncodeErr metaFull) (itemMel extEncodeErr metaFull)
        (itemRes0 extEncodeErr ("A") metaFull) = .error ("Empty phoneme") := by
  have h := C6_encode_error_skip extEncodeErr baTxt ("A") metaFull ("boom")
    rfl rfl
  exact ⟨h.1, h.2 rfl⟩

/-- C7 counterexample: with collaborators whose wavelet transform
returns an infinity (a non-finite value that is not NaN), `get_f0cwt`
does NOT raise — it succeeds and stores the infinite spectrum — so the
claim that it fails on any non-finite value is false; the guard is
`np.isnan` alone. -/
theorem C7_counterexample :
    anyNonFinite (cwtSpec extInfCwt [1]) = true
    ∧ (getF0cwt extInfCwt [1] []).isOk = true
    ∧ dictLookup (((getF0cwt extInfCwt [1] []).toOption).getD [])
        ("cwt_spec") = some (.fvalMat [[FVal.inf]]) := by
  refine ⟨by decide, by decide, by decide⟩

/-- C7 (amended): when the wavelet-pitch transform is enabled,
`get_f0cwt` raises the recoverable per-item failure exactly when the
computed continuous-wavelet spectrum contains a NaN value (infinities
are not detected by the guard); otherwise it stores the spectrum, its
scales and the normalisation mean/std in the record. -/
theorem C7_cwt_nan_guard (ext : Ext) (f0 : List ℚ) (res : Dict) :
    (getF0cwt ext f0 res = .error ("NaN CWT") ↔
      anyNan (cwtSpec ext f0) = true)
    ∧ (∀ d, getF0cwt ext f0 res = .ok d →
        dictLookup d ("cwt_spec") = some (.fvalMat (cwtSpec ext f0))
        ∧ dictLookup d ("cwt_scales") = some (.ratList (cwtScales ext f0))
        ∧ dictLookup d ("f0_mean") =
            some (.num (listMean (contLf0Lpf ext f0)))
        ∧ dictLookup d ("f0_std") =
            some (.num (ext.stdFn (contLf0Lpf ext f0)))) := by
  unfold getF0cwt
  by_cases h : anyNan (cwtSpec ext f0) = true
  · simp [h]
  · simp only [h, if_neg, Bool.false_eq_true, if_false]
    refine ⟨by simp [h], ?_⟩
    intro d hd
    rw [Except.ok.injEq] at hd
    subst hd
    refine ⟨?_, ?_, ?_, ?_⟩ <;> simp +decide [dictLookup_insert]

/-- C7 witness: applying the guard characterisation at the concrete
NaN-free collaborators `extA` shows the success case storing the
computed spectrum. -/
theorem C7_witness :
    dictLookup (((getF0cwt extA [1] []).toOption).getD []) ("cwt_spec") =
      some (.fvalMat [[FVal.fin 1]]) := by
  have h := (C7_cwt_nan_guard extA [1] []).2
    (dictInsert (dictInsert (dictInsert (dictInsert []
      ("cwt_spec") (.fvalMat (cwtSpec extA [1])))
      ("cwt_scales") (.ratList (cwtScales extA [1])))
      ("f0_mean") (.num (listMean (contLf0Lpf extA [1]))))
      ("f0_std") (.num (extA.stdFn (contLf0Lpf extA [1])))) (by rfl)
  exact h.1

/-- C8: the two dispatch strategies are NOT behaviorally equivalent —
the worker-pool loop zips the result stream against the leftover
`meta_data` loop variable (the last item's metadata dict), so on a
two-item split whose last metadata dict has one key it aggregates only
one record while the single-threaded strategy aggregates both, even
though the extractor succeeds on every item.  This contradicts the
documented equivalence and is a slip (the zip target was meant to
enumerate the split's items). -/
theorem C8_dispatch_truncation :
    (processDataSplitSingle extA baAllOff
        [(("a"), metaFull), (("b"), metaOne)]).records.length = 2
    ∧ (processDataSplitMulti extA baAllOff
        [(("a"), metaFull), (("b"), metaOne)]).records.length = 1
    ∧ (∀ a ∈ [(("a"), metaFull), (("b"), metaOne)],
        (processItem extA baAllOff a.1 a.2).isSome = true) := by
  refine ⟨by rfl, by rfl, by decide⟩

/-- C9: the item ordering of the registry is deterministic across runs —
with shuffle disabled it is the sorted name list, with shuffle enabled it
is the fixed-seed (1234) shuffle of the sorted name list — and it does
not depend on the interpreter's ambient PRNG state (`r₁`, `r₂` model two
runs with different ambient states); consequently two single-threaded
runs over the same corpus and configuration aggregate identical split
states, length lists included. -/
theorem C9_order_determinism (r₁ r₂ : ℕ) (flag : Bool)
    (keys : List String) (ext : Ext) (ba : BinArgs)
    (sel : List String → List String) (itemsOf : String → Dict) :
    shuffledItemNames r₁ false keys = sortStrings keys
    ∧ shuffledItemNames r₁ true keys = seededShuffle 1234 (sortStrings keys)
    ∧ shuffledItemNames r₁ flag keys = shuffledItemNames r₂ flag keys
    ∧ processDataSplitSingle ext ba
        ((sel (shuffledItemNames r₁ flag keys)).map (fun n => (n, itemsOf n)))
      = processDataSplitSingle ext ba
        ((sel (shuffledItemNames r₂ flag keys)).map
          (fun n => (n, itemsOf n))) :=
  ⟨rfl, rfl, rfl, rfl⟩

/-- C10: in `process_item` the metadata dict is merged over the computed
base record, so every metadata attribute appears verbatim in the merged
feature record — a metadata key colliding with a computed field
(`item_name`, `mel`, `wav`, `sec`, `len`) silently replaces the computed
value — while non-colliding computed fields survive the merge. -/
theorem C10_meta_merge (ext : Ext) (nm : String) (meta : Dict)
    (hmeta : (meta.map Prod.fst).Nodup) :
    (∀ k v, dictLookup meta k = some v →
      dictLookup (itemRes0 ext nm meta) k = some v)
    ∧ (∀ k, dictLookup meta k = none →
      dictLookup (itemRes0 ext nm meta) k =
        dictLookup (processItemBase nm (itemWav ext meta)
          (itemMel ext meta) ext.sampleRate) k) := by
  constructor
  · intro k v hk
    unfold itemRes0
    rw [dictLookup_merge _ _ _ hmeta, hk]
    rfl
  · intro k hk
    unfold itemRes0
    rw [dictLookup_merge _ _ _ hmeta, hk, Option.none_or]

/-- C10 witness: a metadata dict carrying a `len` key replaces the
computed frame count (3 under `extA`) with its own value 99 in the
merged record. -/
theorem C10_witness :
    dictLookup (itemRes0 extA ("A") metaLenClash) ("len") = some (.num 99)
    ∧ dictLookup (processItemBase ("A") (itemWav extA metaLenClash)
        (itemMel extA metaLenClash) extA.sampleRate) ("len") =
      some (.num 3) := by
  refine ⟨(C10_meta_merge extA ("A") metaLenClash (by decide)).1 ("len")
    (.num 99) (by decide), by decide⟩

end DiffSinger
